import Mathlib

/-!
Verification of the PairedComparison module of the RMT repository.

The repository's only source file is a notebook (src/Lecture_6/t-test.ipynb)
whose reproducible logic consists of two library calls:
  - data.agg with mean and std (pandas: arithmetic mean, Bessel-corrected
    sample standard deviation), specified as the operation summarize;
  - stats.ttest_rel (scipy: paired t-test), specified as the operation
    pairedTTest.
The implementations of those operations are not part of the repository, so
they are modelled here from the specification (sections 3, 4.1, 6 and 7),
over exact real arithmetic, which is the contract the specification states.
The Student t cumulative distribution function is kept abstract, as a
parameter tcdf of the test, exactly as section 9 of the specification
prescribes: the module depends on a continuous-distribution tail-probability
capability, and the contract is the mathematical relation of section 4.1,
not a particular special-function implementation.
-/

namespace RMT

/-- Modelled from the spec: the error taxonomy of section 7 of the
specification; the corresponding implementation code is absent from the
repository (the notebook delegates to scipy). -/
inductive TTestError
  | LengthMismatchError
  | InsufficientDataError
  | DegenerateVarianceError
  | InvalidInputError
  deriving DecidableEq

/-- Modelled from the spec: the SummaryStats record of section 3, a derived
read-only record with a mean and a standard deviation. -/
structure SummaryStats where
  mean : ℝ
  std : ℝ

/-- Modelled from the spec: the TestResult record of section 3, the output of
the paired test, with a statistic and a p-value. -/
structure TestResult where
  statistic : ℝ
  p_value : ℝ

/-- Modelled from the spec: the arithmetic average of all elements of a
sample (section 4.1, summarize, and step 2 of the paired-test algorithm). -/
noncomputable def mean (xs : List ℝ) : ℝ := xs.sum / xs.length

/-- Modelled from the spec: the Bessel-corrected sample variance, the square
of the sample standard deviation with divisor N - 1 (section 3 and step 3 of
the algorithm of section 4.1). -/
noncomputable def sampleVar (xs : List ℝ) : ℝ :=
  (xs.map (fun x => (x - mean xs) ^ 2)).sum / ((xs.length : ℝ) - 1)

/-- Modelled from the spec: the sample standard deviation with divisor N - 1
(section 3, SummaryStats, and step 3 of the algorithm of section 4.1). -/
noncomputable def std (xs : List ℝ) : ℝ := Real.sqrt (sampleVar xs)

/-- Modelled from the spec: the operation summarize of section 4.1; it fails
with InsufficientDataError when N < 2, since the notebook requests std and
the divisor N - 1 would be zero or negative. -/
noncomputable def summarize (xs : List ℝ) : Except TTestError SummaryStats :=
  if xs.length < 2 then .error .InsufficientDataError
  else .ok ⟨mean xs, std xs⟩

/-- Modelled from the spec: step 1 of the algorithm of section 4.1, the
element-wise differences of the two samples. -/
noncomputable def diffs (A B : List ℝ) : List ℝ := List.zipWith (· - ·) A B

/-- Modelled from the spec: steps 4 and 6 of the algorithm of section 4.1,
the t-statistic, the mean of the differences divided by the standard error
of the differences. -/
noncomputable def tstat (A B : List ℝ) : ℝ :=
  mean (diffs A B) / (std (diffs A B) / Real.sqrt (A.length : ℝ))

/-- Modelled from the spec: steps 7 and 8 of the algorithm of section 4.1,
the two-tailed p-value with N - 1 degrees of freedom, for the supplied
cumulative-distribution capability tcdf (section 9). -/
noncomputable def pval (tcdf : ℕ → ℝ → ℝ) (A B : List ℝ) : ℝ :=
  2 * (1 - tcdf (A.length - 1) |tstat A B|)

/-- Modelled from the spec: the operation pairedTTest of section 4.1 over
real-valued samples, with its validation order: LengthMismatchError when the
lengths differ, InsufficientDataError when N < 2, DegenerateVarianceError
when the standard deviation of the differences is zero (step 5), and
otherwise the TestResult of step 9.  The parameter tcdf is the Student t
cumulative distribution function capability of section 9. -/
noncomputable def pairedTTest (tcdf : ℕ → ℝ → ℝ) (A B : List ℝ) :
    Except TTestError TestResult :=
  if A.length ≠ B.length then .error .LengthMismatchError
  else if A.length < 2 then .error .InsufficientDataError
  else if std (diffs A B) = 0 then .error .DegenerateVarianceError
  else .ok ⟨tstat A B, pval tcdf A B⟩

/-- Modelled from the spec: a floating-point input value as the boundary of
section 6 sees it, either a finite value (carried as a real number) or one
of the non-finite IEEE values NaN, positive infinity, negative infinity. -/
inductive FloatVal
  | finite (x : ℝ)
  | nan
  | posInf
  | negInf

/-- Modelled from the spec: whether an input value is finite (section 6:
the core requires sequences of finite floating-point numbers). -/
def FloatVal.isFinite : FloatVal → Bool
  | .finite _ => true
  | _ => false

/-- The real number carried by a finite input value; non-finite values are
mapped to 0, but they are rejected before this projection is used. -/
def FloatVal.val : FloatVal → ℝ
  | .finite x => x
  | _ => 0

/-- Modelled from the spec: the boundary validation of section 7; non-finite
inputs (NaN or an infinity in either sequence) fail with InvalidInputError
and are not propagated into the result; finite inputs are handed to the core
pairedTTest. -/
noncomputable def pairedTTestChecked (tcdf : ℕ → ℝ → ℝ)
    (A B : List FloatVal) : Except TTestError TestResult :=
  if A.all FloatVal.isFinite && B.all FloatVal.isFinite then
    pairedTTest tcdf (A.map FloatVal.val) (B.map FloatVal.val)
  else .error .InvalidInputError

lemma mean_perm {xs ys : List ℝ} (h : xs.Perm ys) : mean xs = mean ys := by
  unfold mean
  rw [h.sum_eq, h.length_eq]

lemma sampleVar_perm {xs ys : List ℝ} (h : xs.Perm ys) :
    sampleVar xs = sampleVar ys := by
  unfold sampleVar
  rw [mean_perm h, h.length_eq, (h.map (fun x => (x - mean ys) ^ 2)).sum_eq]

lemma std_perm {xs ys : List ℝ} (h : xs.Perm ys) : std xs = std ys := by
  unfold std
  rw [sampleVar_perm h]

lemma length_diffs (A B : List ℝ) :
    (diffs A B).length = min A.length B.length := by
  simp [diffs]

lemma diffs_map_add (c : ℝ) (A B : List ℝ) :
    diffs (A.map (· + c)) (B.map (· + c)) = diffs A B := by
  induction A generalizing B with
  | nil => simp [diffs]
  | cons a A ih =>
    cases B with
    | nil => simp [diffs]
    | cons b B =>
      simp only [List.map_cons, diffs, List.zipWith_cons_cons]
      refine congrArg₂ _ (by ring) ?_
      exact ih B

lemma diffs_map_add_right (c : ℝ) (A B : List ℝ) :
    diffs A (B.map (· + c)) = (diffs A B).map (· - c) := by
  induction A generalizing B with
  | nil => simp [diffs]
  | cons a A ih =>
    cases B with
    | nil => simp [diffs]
    | cons b B =>
      simp only [List.map_cons, diffs, List.zipWith_cons_cons]
      refine congrArg₂ _ (by ring) ?_
      exact ih B

lemma diffs_swap (A B : List ℝ) :
    diffs B A = (diffs A B).map (fun x => -x) := by
  induction A generalizing B with
  | nil => simp [diffs]
  | cons a A ih =>
    cases B with
    | nil => simp [diffs]
    | cons b B =>
      simp only [diffs, List.zipWith_cons_cons, List.map_cons]
      refine congrArg₂ _ (by ring) ?_
      exact ih B

lemma sum_map_sub_const (c : ℝ) (xs : List ℝ) :
    (xs.map (· - c)).sum = xs.sum - xs.length * c := by
  induction xs with
  | nil => simp
  | cons a l ih =>
    simp only [List.map_cons, List.sum_cons, List.length_cons, ih]
    push_cast
    ring

lemma sum_map_neg_eq (xs : List ℝ) :
    (xs.map (fun x => -x)).sum = -xs.sum := by
  induction xs with
  | nil => simp
  | cons a l ih =>
    simp only [List.map_cons, List.sum_cons, ih]
    ring

lemma length_cast_ne_zero {xs : List ℝ} (h : xs ≠ []) :
    (xs.length : ℝ) ≠ 0 := by
  have : 0 < xs.length := List.length_pos.mpr h
  exact_mod_cast this.ne'

lemma mean_map_sub (c : ℝ) (xs : List ℝ) (h : xs ≠ []) :
    mean (xs.map (· - c)) = mean xs - c := by
  unfold mean
  rw [List.length_map, sum_map_sub_const, sub_div,
    mul_div_cancel_left₀ _ (length_cast_ne_zero h)]

lemma mean_map_neg (xs : List ℝ) :
    mean (xs.map (fun x => -x)) = -mean xs := by
  unfold mean
  rw [List.length_map, sum_map_neg_eq, neg_div]

lemma mean_const {a : ℝ} {xs : List ℝ} (hc : ∀ x ∈ xs, x = a)
    (h : xs ≠ []) : mean xs = a := by
  unfold mean
  rw [List.sum_eq_card_nsmul xs a hc, nsmul_eq_mul,
    mul_div_cancel_left₀ _ (length_cast_ne_zero h)]

lemma sampleVar_map_sub (c : ℝ) (xs : List ℝ) (h : xs ≠ []) :
    sampleVar (xs.map (· - c)) = sampleVar xs := by
  unfold sampleVar
  rw [List.length_map, mean_map_sub c xs h, List.map_map]
  have hf : ((fun x => (x - (mean xs - c)) ^ 2) ∘ (· - c)) =
      fun x : ℝ => (x - mean xs) ^ 2 := by
    funext x
    simp only [Function.comp_apply]
    ring
  rw [hf]

lemma sampleVar_map_neg (xs : List ℝ) :
    sampleVar (xs.map (fun x => -x)) = sampleVar xs := by
  unfold sampleVar
  rw [List.length_map, mean_map_neg, List.map_map]
  have hf : ((fun x => (x - -mean xs) ^ 2) ∘ (fun x : ℝ => -x)) =
      fun x : ℝ => (x - mean xs) ^ 2 := by
    funext x
    simp only [Function.comp_apply]
    ring
  rw [hf]

lemma sampleVar_eq_zero_of_const {a : ℝ} {xs : List ℝ}
    (hc : ∀ x ∈ xs, x = a) : sampleVar xs = 0 := by
  rcases eq_or_ne xs [] with rfl | h
  · simp [sampleVar]
  · unfold sampleVar
    rw [List.sum_eq_zero, zero_div]
    intro y hy
    obtain ⟨x, hx, rfl⟩ := List.mem_map.mp hy
    rw [mean_const hc h, hc x hx]
    ring

lemma std_pos_of_ne_zero {xs : List ℝ} (h : std xs ≠ 0) : 0 < std xs :=
  (Real.sqrt_nonneg _).lt_of_ne (Ne.symm h)

lemma std_eq_zero_of_const {a : ℝ} {xs : List ℝ}
    (hc : ∀ x ∈ xs, x = a) : std xs = 0 := by
  rw [std, sampleVar_eq_zero_of_const hc, Real.sqrt_zero]

lemma std_map_sub (c : ℝ) (xs : List ℝ) (h : xs ≠ []) :
    std (xs.map (· - c)) = std xs := by
  rw [std, std, sampleVar_map_sub c xs h]

lemma std_map_neg (xs : List ℝ) :
    std (xs.map (fun x => -x)) = std xs := by
  rw [std, std, sampleVar_map_neg]

lemma mean_diffs_swap (A B : List ℝ) :
    mean (diffs B A) = -mean (diffs A B) := by
  rw [diffs_swap, mean_map_neg]

lemma std_diffs_swap (A B : List ℝ) :
    std (diffs B A) = std (diffs A B) := by
  rw [diffs_swap, std_map_neg]

lemma tstat_swap {A B : List ℝ} (hlen : A.length = B.length) :
    tstat B A = -tstat A B := by
  unfold tstat
  rw [mean_diffs_swap, std_diffs_swap, hlen, neg_div]

lemma pairedTTest_eq_ok (tcdf : ℕ → ℝ → ℝ) (A B : List ℝ)
    (hlen : A.length = B.length) (hN : 2 ≤ A.length)
    (hstd : std (diffs A B) ≠ 0) :
    pairedTTest tcdf A B = .ok ⟨tstat A B, pval tcdf A B⟩ := by
  unfold pairedTTest
  rw [if_neg (not_ne_iff.mpr hlen), if_neg (Nat.not_lt.mpr hN), if_neg hstd]

lemma diffs_ne_nil {A B : List ℝ} (hlen : A.length = B.length)
    (hN : 2 ≤ A.length) : diffs A B ≠ [] := by
  have hdlen : (diffs A B).length = A.length := by
    rw [length_diffs, hlen, min_self]
  intro hnil
  rw [hnil] at hdlen
  simp at hdlen
  omega

lemma pairedTTest_const_diffs (tcdf : ℕ → ℝ → ℝ) (A B : List ℝ)
    (hlen : A.length = B.length) (hN : 2 ≤ A.length)
    (hc : ∀ x ∈ diffs A B, ∀ y ∈ diffs A B, x = y) :
    pairedTTest tcdf A B = .error .DegenerateVarianceError := by
  have hne : diffs A B ≠ [] := diffs_ne_nil hlen hN
  have hconst : ∀ x ∈ diffs A B, x = (diffs A B).head hne :=
    fun x hx => hc x hx _ (List.head_mem hne)
  have hstd0 : std (diffs A B) = 0 := std_eq_zero_of_const hconst
  unfold pairedTTest
  rw [if_neg (not_ne_iff.mpr hlen), if_neg (Nat.not_lt.mpr hN), if_pos hstd0]

lemma diffs_self_eq_zero (A : List ℝ) : ∀ z ∈ diffs A A, z = 0 := by
  intro z hz
  rw [diffs, List.zipWith_same] at hz
  obtain ⟨a, _, rfl⟩ := List.mem_map.mp hz
  ring

lemma diffs_ex : diffs [0, 2] [0, 0] = ([0, 2] : List ℝ) := by
  norm_num [diffs]

lemma sampleVar_ex : sampleVar ([0, 2] : List ℝ) = 2 := by
  norm_num [sampleVar, mean]

lemma std_d_ex : std (diffs [0, 2] [0, 0]) ≠ 0 := by
  rw [diffs_ex, std, sampleVar_ex]
  exact Real.sqrt_ne_zero'.mpr (by norm_num)

/-- C1: for every pair of equal-length samples A and B of length N at least
2 whose element-wise differences have nonzero sample standard deviation,
pairedTTest returns the statistic mean_d / (std_d / sqrt N), where mean_d is
the arithmetic mean of the differences and std_d their sample standard
deviation with divisor N - 1, and the p-value 2 * (1 - CDF (N - 1) |t|),
where CDF is the Student t cumulative-distribution capability supplied to
the test. -/
theorem C1_pairedTTest_formula (tcdf : ℕ → ℝ → ℝ) (A B : List ℝ)
    (hlen : A.length = B.length) (hN : 2 ≤ A.length)
    (hstd : std (diffs A B) ≠ 0) :
    pairedTTest tcdf A B = .ok
      ⟨mean (diffs A B) / (std (diffs A B) / Real.sqrt (A.length : ℝ)),
       2 * (1 - tcdf (A.length - 1)
         |mean (diffs A B) / (std (diffs A B) / Real.sqrt (A.length : ℝ))|)⟩ :=
  pairedTTest_eq_ok tcdf A B hlen hN hstd

theorem C1_pairedTTest_formula_witness :
    (([0, 2] : List ℝ).length = ([0, 0] : List ℝ).length ∧
      2 ≤ ([0, 2] : List ℝ).length ∧ std (diffs [0, 2] [0, 0]) ≠ 0) ∧
    pairedTTest (fun _ _ => 0) [0, 2] [0, 0] = .ok
      ⟨mean (diffs [0, 2] [0, 0]) /
          (std (diffs [0, 2] [0, 0]) / Real.sqrt (([0, 2] : List ℝ).length : ℝ)),
       2 * (1 - (fun _ _ => (0 : ℝ)) (([0, 2] : List ℝ).length - 1)
         |mean (diffs [0, 2] [0, 0]) /
           (std (diffs [0, 2] [0, 0]) / Real.sqrt (([0, 2] : List ℝ).length : ℝ))|)⟩ :=
  ⟨⟨rfl, by norm_num, std_d_ex⟩,
   C1_pairedTTest_formula (fun _ _ => 0) [0, 2] [0, 0] rfl (by norm_num) std_d_ex⟩

/-- C3: for every sample of length N at least 2, summarize returns the
arithmetic average of the elements as the mean and the Bessel-corrected
sample standard deviation, with divisor N - 1, as the std. -/
theorem C3_summarize_mean_std (xs : List ℝ) (h : 2 ≤ xs.length) :
    summarize xs = .ok ⟨xs.sum / (xs.length : ℝ),
      Real.sqrt ((xs.map (fun x => (x - xs.sum / (xs.length : ℝ)) ^ 2)).sum
        / ((xs.length : ℝ) - 1))⟩ := by
  unfold summarize
  rw [if_neg (Nat.not_lt.mpr h)]
  rfl

theorem C3_summarize_mean_std_witness :
    2 ≤ ([1, 2] : List ℝ).length ∧
    summarize [1, 2] = .ok ⟨([1, 2] : List ℝ).sum / (([1, 2] : List ℝ).length : ℝ),
      Real.sqrt ((([1, 2] : List ℝ).map
          (fun x => (x - ([1, 2] : List ℝ).sum / (([1, 2] : List ℝ).length : ℝ)) ^ 2)).sum
        / ((([1, 2] : List ℝ).length : ℝ) - 1))⟩ :=
  ⟨by norm_num, C3_summarize_mean_std [1, 2] (by norm_num)⟩

/-- C4: for every pair of samples whose lengths differ, pairedTTest fails
with LengthMismatchError and produces no result. -/
theorem C4_length_mismatch (tcdf : ℕ → ℝ → ℝ) (A B : List ℝ)
    (h : A.length ≠ B.length) :
    pairedTTest tcdf A B = .error .LengthMismatchError := by
  unfold pairedTTest
  rw [if_pos h]

theorem C4_length_mismatch_witness :
    ([1, 2, 3] : List ℝ).length ≠ ([1, 2] : List ℝ).length ∧
    pairedTTest (fun _ _ => 0) [1, 2, 3] [1, 2] = .error .LengthMismatchError :=
  ⟨by simp, C4_length_mismatch (fun _ _ => 0) [1, 2, 3] [1, 2] (by simp)⟩

/-- C5: for every pair of equal-length samples with fewer than 2 paired
observations, pairedTTest fails with InsufficientDataError, and summarize
fails with InsufficientDataError on a sample of length below 2. -/
theorem C5_insufficient_data :
    (∀ (tcdf : ℕ → ℝ → ℝ) (A B : List ℝ), A.length = B.length →
      A.length < 2 → pairedTTest tcdf A B = .error .InsufficientDataError) ∧
    (∀ xs : List ℝ, xs.length < 2 →
      summarize xs = .error .InsufficientDataError) := by
  constructor
  · intro tcdf A B hlen hN
    unfold pairedTTest
    rw [if_neg (not_ne_iff.mpr hlen), if_pos hN]
  · intro xs h
    unfold summarize
    rw [if_pos h]

theorem C5_insufficient_data_witness :
    pairedTTest (fun _ _ => 0) [5] [3] = .error .InsufficientDataError ∧
    summarize ([5] : List ℝ) = .error .InsufficientDataError :=
  ⟨C5_insufficient_data.1 (fun _ _ => 0) [5] [3] rfl (by norm_num),
   C5_insufficient_data.2 [5] (by norm_num)⟩

/-- C8: for every sample and every permutation of its elements, summarize
returns the same mean and the same std on the permuted sample as on the
original. -/
theorem C8_summarize_perm (xs ys : List ℝ) (h : xs.Perm ys) :
    summarize xs = summarize ys := by
  unfold summarize
  rw [h.length_eq, mean_perm h, std_perm h]

theorem C8_summarize_perm_witness :
    ([1, 2] : List ℝ).Perm [2, 1] ∧
    summarize ([1, 2] : List ℝ) = summarize [2, 1] :=
  ⟨List.Perm.swap 2 1 [], C8_summarize_perm [1, 2] [2, 1] (List.Perm.swap 2 1 [])⟩

/-- C10: adding one common constant to every element of both samples leaves
the result of pairedTTest unchanged, the element-wise differences being
unchanged by a common shift; stated for all inputs, which covers in
particular every pair on which the test succeeds. -/
theorem C10_shift_invariance (tcdf : ℕ → ℝ → ℝ) (c : ℝ) (A B : List ℝ) :
    pairedTTest tcdf (A.map (· + c)) (B.map (· + c)) = pairedTTest tcdf A B := by
  simp only [pairedTTest, tstat, pval, diffs_map_add, List.length_map]

/-- C2: for every pair of equal-length samples of length N at least 2 whose
element-wise differences all coincide, pairedTTest signals
DegenerateVarianceError rather than dividing by zero; in particular, on two
identical samples of length at least 2 it signals the degenerate
no-difference case. -/
theorem C2_degenerate_variance :
    (∀ (tcdf : ℕ → ℝ → ℝ) (A B : List ℝ), A.length = B.length →
      2 ≤ A.length → (∀ x ∈ diffs A B, ∀ y ∈ diffs A B, x = y) →
      pairedTTest tcdf A B = .error .DegenerateVarianceError) ∧
    (∀ (tcdf : ℕ → ℝ → ℝ) (A : List ℝ), 2 ≤ A.length →
      pairedTTest tcdf A A = .error .DegenerateVarianceError) := by
  refine ⟨pairedTTest_const_diffs, ?_⟩
  intro tcdf A hN
  refine pairedTTest_const_diffs tcdf A A rfl hN ?_
  intro x hx y hy
  rw [diffs_self_eq_zero A x hx, diffs_self_eq_zero A y hy]

theorem C2_degenerate_variance_witness :
    pairedTTest (fun _ _ => 0) [1, 2] [0, 1] = .error .DegenerateVarianceError ∧
    pairedTTest (fun _ _ => 0) [1, 2] [1, 2] = .error .DegenerateVarianceError := by
  constructor
  · refine C2_degenerate_variance.1 (fun _ _ => 0) [1, 2] [0, 1] rfl (by norm_num) ?_
    have hd : diffs [1, 2] [0, 1] = ([1, 1] : List ℝ) := by norm_num [diffs]
    rw [hd]
    intro x hx y hy
    simp at hx hy
    rw [hx, hy]
  · exact C2_degenerate_variance.2 (fun _ _ => 0) [1, 2] (by norm_num)

/-- C6: for every pair of equal-length samples of length N at least 2 on
which the test succeeds, swapping the two samples negates the statistic and
leaves the p-value unchanged. -/
theorem C6_swap_antisymmetry (tcdf : ℕ → ℝ → ℝ) (A B : List ℝ)
    (hlen : A.length = B.length) (hN : 2 ≤ A.length)
    (hstd : std (diffs A B) ≠ 0) :
    ∃ t p, pairedTTest tcdf A B = .ok ⟨t, p⟩ ∧
      pairedTTest tcdf B A = .ok ⟨-t, p⟩ := by
  refine ⟨tstat A B, pval tcdf A B, pairedTTest_eq_ok tcdf A B hlen hN hstd, ?_⟩
  have hstd' : std (diffs B A) ≠ 0 := by
    rw [std_diffs_swap]
    exact hstd
  have hN' : 2 ≤ B.length := by omega
  have h2 : pairedTTest tcdf B A = .ok ⟨tstat B A, pval tcdf B A⟩ :=
    pairedTTest_eq_ok tcdf B A hlen.symm hN' hstd'
  have hp : pval tcdf B A = pval tcdf A B := by
    unfold pval
    rw [tstat_swap hlen, abs_neg, ← hlen]
  rw [h2, tstat_swap hlen, hp]

theorem C6_swap_antisymmetry_witness :
    std (diffs [0, 2] [0, 0]) ≠ 0 ∧
    ∃ t p, pairedTTest (fun _ _ => 0) [0, 2] [0, 0] = .ok ⟨t, p⟩ ∧
      pairedTTest (fun _ _ => 0) [0, 0] [0, 2] = .ok ⟨-t, p⟩ :=
  ⟨std_d_ex,
   C6_swap_antisymmetry (fun _ _ => 0) [0, 2] [0, 0] rfl (by norm_num) std_d_ex⟩

/-- C9: for every input pair in which either sequence contains a non-finite
value, the boundary-validated test fails with InvalidInputError rather than
propagating the non-finite value into the result. -/
theorem C9_nonfinite_rejected (tcdf : ℕ → ℝ → ℝ) (A B : List FloatVal)
    (h : (∃ v ∈ A, v.isFinite = false) ∨ (∃ v ∈ B, v.isFinite = false)) :
    pairedTTestChecked tcdf A B = .error .InvalidInputError := by
  have hcond : ¬(A.all FloatVal.isFinite && B.all FloatVal.isFinite) = true := by
    rw [Bool.and_eq_true]
    rintro ⟨hA, hB⟩
    rcases h with ⟨v, hv, hf⟩ | ⟨v, hv, hf⟩
    · have hvt := List.all_eq_true.mp hA v hv
      rw [hf] at hvt
      exact Bool.false_ne_true hvt
    · have hvt := List.all_eq_true.mp hB v hv
      rw [hf] at hvt
      exact Bool.false_ne_true hvt
  unfold pairedTTestChecked
  rw [if_neg hcond]

theorem C9_nonfinite_rejected_witness :
    ((∃ v ∈ [FloatVal.nan, FloatVal.finite 1], v.isFinite = false) ∨
      (∃ v ∈ ([FloatVal.finite 1, FloatVal.finite 2] : List FloatVal),
        v.isFinite = false)) ∧
    pairedTTestChecked (fun _ _ => 0) [FloatVal.nan, FloatVal.finite 1]
      [FloatVal.finite 1, FloatVal.finite 2] = .error .InvalidInputError :=
  ⟨Or.inl ⟨FloatVal.nan, by simp, rfl⟩,
   C9_nonfinite_rejected (fun _ _ => 0) _ _
     (Or.inl ⟨FloatVal.nan, by simp, rfl⟩)⟩

/-- C7, counterexample: the claim instantiates the offset construction as B
equal to A shifted by a constant, but then every element-wise difference is
that constant, the sample standard deviation of the differences is zero, and
pairedTTest signals DegenerateVarianceError instead of returning any
statistic; at A = [0, 1], offsets 1 and 2, no comparison of statistics or
p-values exists. -/
theorem C7_counterexample :
    |(1 : ℝ)| < |(2 : ℝ)| ∧
    ¬ ∃ t₁ p₁ t₂ p₂ : ℝ,
      pairedTTest (fun _ _ => 0) [0, 1] (([0, 1] : List ℝ).map (· + 1)) =
        .ok ⟨t₁, p₁⟩ ∧
      pairedTTest (fun _ _ => 0) [0, 1] (([0, 1] : List ℝ).map (· + 2)) =
        .ok ⟨t₂, p₂⟩ ∧
      |t₁| < |t₂| ∧ p₂ < p₁ := by
  refine ⟨by norm_num, ?_⟩
  rintro ⟨t₁, p₁, t₂, p₂, h1, _, _, _⟩
  have hmap : (([0, 1] : List ℝ).map (· + 1)) = [1, 2] := by norm_num
  have hd : diffs [0, 1] [1, 2] = ([-1, -1] : List ℝ) := by norm_num [diffs]
  have herr : pairedTTest (fun _ _ => 0) [0, 1] [1, 2] =
      .error .DegenerateVarianceError := by
    refine pairedTTest_const_diffs (fun _ _ => 0) [0, 1] [1, 2] rfl (by norm_num) ?_
    rw [hd]
    intro x hx y hy
    simp at hx hy
    rw [hx, hy]
  rw [hmap, herr] at h1
  exact Except.noConfusion h1

/-- C7, amended: shifting sample B by a constant leaves the variance of the
differences fixed; for every pair of equal-length samples of length N at
least 2 with nonzero standard deviation of the differences, every strictly
increasing cumulative-distribution capability, and two shift constants whose
resulting mean offsets have strictly increasing magnitude, the test against
the larger offset yields a statistic of strictly larger magnitude and a
strictly smaller p-value. -/
theorem C7_offset_monotonicity (tcdf : ℕ → ℝ → ℝ) (A B : List ℝ) (c₁ c₂ : ℝ)
    (hlen : A.length = B.length) (hN : 2 ≤ A.length)
    (hstd : std (diffs A B) ≠ 0)
    (hmono : StrictMono (tcdf (A.length - 1)))
    (hc : |mean (diffs A B) - c₁| < |mean (diffs A B) - c₂|) :
    ∃ t₁ p₁ t₂ p₂,
      pairedTTest tcdf A (B.map (· + c₁)) = .ok ⟨t₁, p₁⟩ ∧
      pairedTTest tcdf A (B.map (· + c₂)) = .ok ⟨t₂, p₂⟩ ∧
      |t₁| < |t₂| ∧ p₂ < p₁ := by
  have hdne : diffs A B ≠ [] := diffs_ne_nil hlen hN
  have hlenc : ∀ c : ℝ, A.length = (B.map (· + c)).length := by
    intro c
    rw [List.length_map]
    exact hlen
  have hstdc : ∀ c : ℝ, std (diffs A (B.map (· + c))) = std (diffs A B) := by
    intro c
    rw [diffs_map_add_right, std_map_sub _ _ hdne]
  have hmeanc : ∀ c : ℝ, mean (diffs A (B.map (· + c))) = mean (diffs A B) - c := by
    intro c
    rw [diffs_map_add_right, mean_map_sub _ _ hdne]
  have htc : ∀ c : ℝ, tstat A (B.map (· + c)) =
      (mean (diffs A B) - c) / (std (diffs A B) / Real.sqrt (A.length : ℝ)) := by
    intro c
    unfold tstat
    rw [hstdc, hmeanc]
  have hNpos : (0 : ℝ) < (A.length : ℝ) := by
    have h0 : 0 < A.length := by omega
    exact_mod_cast h0
  have hspos : 0 < std (diffs A B) / Real.sqrt (A.length : ℝ) :=
    div_pos (std_pos_of_ne_zero hstd) (Real.sqrt_pos.mpr hNpos)
  have habs : ∀ c : ℝ, |tstat A (B.map (· + c))| =
      |mean (diffs A B) - c| / (std (diffs A B) / Real.sqrt (A.length : ℝ)) := by
    intro c
    rw [htc, abs_div, abs_of_pos hspos]
  have habslt : |tstat A (B.map (· + c₁))| < |tstat A (B.map (· + c₂))| := by
    rw [habs, habs]
    gcongr
  have h1 := pairedTTest_eq_ok tcdf A (B.map (· + c₁)) (hlenc c₁) hN
    (by rw [hstdc]; exact hstd)
  have h2 := pairedTTest_eq_ok tcdf A (B.map (· + c₂)) (hlenc c₂) hN
    (by rw [hstdc]; exact hstd)
  refine ⟨_, _, _, _, h1, h2, habslt, ?_⟩
  have hcdf := hmono habslt
  unfold pval
  linarith

theorem C7_offset_monotonicity_witness :
    (std (diffs [0, 2] [0, 0]) ≠ 0 ∧
      |mean (diffs [0, 2] [0, 0]) - 1| < |mean (diffs [0, 2] [0, 0]) - 2|) ∧
    ∃ t₁ p₁ t₂ p₂,
      pairedTTest (fun _ x => x) [0, 2] (([0, 0] : List ℝ).map (· + 1)) =
        .ok ⟨t₁, p₁⟩ ∧
      pairedTTest (fun _ x => x) [0, 2] (([0, 0] : List ℝ).map (· + 2)) =
        .ok ⟨t₂, p₂⟩ ∧
      |t₁| < |t₂| ∧ p₂ < p₁ := by
  have hm : mean ([0, 2] : List ℝ) = 1 := by norm_num [mean]
  have hc : |mean (diffs [0, 2] [0, 0]) - 1| < |mean (diffs [0, 2] [0, 0]) - 2| := by
    rw [diffs_ex, hm]
    rw [show (1 : ℝ) - 1 = 0 by norm_num, show (1 : ℝ) - 2 = -1 by norm_num,
      abs_zero, abs_neg, abs_one]
    norm_num
  exact ⟨⟨std_d_ex, hc⟩,
    C7_offset_monotonicity (fun _ x => x) [0, 2] [0, 0] 1 2 rfl (by norm_num)
      std_d_ex strictMono_id hc⟩

end RMT
